import Mathlib

/-!
# Verification development for the swarm-ui control-plane core

Shallow embedding of the Rust crates under `crates/core` (dag, state,
scheduler) and `crates/events` (wal, types), together with theorems
settling the frozen claims about them.

Modelling conventions:
* `Uuid` values are opaque identifiers; modelled as `Nat`.
* `chrono::DateTime<Utc>` instants are opaque; modelled as `Nat` and passed
  explicitly wherever the source calls `Utc::now()`.
* `HashMap` is modelled as an association list with first-match lookup and
  insert-replaces-existing-key semantics (`mapGet` / `insertAssoc`).
* `serde_json::Value` is opaque to every claim; modelled as its serialized
  text (`Json := String`).
* `f64` fields never touched by an arithmetic claim (editor positions,
  server load used only for ordering comparisons) are modelled as `ℚ`.
-/

namespace SwarmUI

/-- Opaque 128-bit identifiers (`uuid::Uuid`), modelled as naturals. -/
abbrev Uuid := Nat

/-- Opaque UTC instants (`chrono::DateTime<Utc>`), modelled as naturals. -/
abbrev Instant := Nat

/-- `serde_json::Value`, opaque to all claims; modelled as serialized text. -/
abbrev Json := String

/-! ## Node state machine (`crates/core/src/state.rs`) -/

/-- Node execution states (`NodeState`). -/
inductive NodeState where
  | Pending
  | Scheduled
  | Running
  | Done
  | Failed
  | Cancelled
  | Retrying
  deriving DecidableEq, Repr

/-- `NodeState::is_terminal`. -/
def NodeState.is_terminal : NodeState → Bool
  | .Done | .Failed | .Cancelled => true
  | _ => false

/-- `NodeState::can_schedule`. -/
def NodeState.can_schedule : NodeState → Bool
  | .Pending | .Retrying => true
  | _ => false

/-- `NodeState::is_active`. -/
def NodeState.is_active : NodeState → Bool
  | .Scheduled | .Running => true
  | _ => false

/-- `NodeState::valid_transitions`. -/
def NodeState.valid_transitions : NodeState → List NodeState
  | .Pending => [.Scheduled, .Cancelled]
  | .Scheduled => [.Running, .Failed, .Cancelled]
  | .Running => [.Done, .Failed, .Cancelled]
  | .Failed => [.Retrying, .Cancelled]
  | .Retrying => [.Scheduled, .Cancelled]
  | .Done => []
  | .Cancelled => []

/-- `StateTransition`. The Rust field names `from` and `to` are Lean
keywords and are rendered `fromState` / `toState`. -/
structure StateTransition where
  fromState : NodeState
  toState : NodeState
  timestamp : Instant
  reason : Option String
  deriving DecidableEq, Repr

/-- `StateError`. -/
inductive StateError where
  | InvalidTransition (fromState toState : NodeState)
  | MaxRetriesExceeded (n : Nat)
  | NodeNotFound (id : Uuid)
  | WorkflowNotFound (id : Uuid)
  deriving DecidableEq, Repr

/-- `NodeContext`. -/
structure NodeContext where
  node_id : Uuid
  workflow_id : Uuid
  state : NodeState
  retry_count : Nat
  max_retries : Nat
  last_error : Option String
  started_at : Option Instant
  completed_at : Option Instant
  server : Option String
  transitions : List StateTransition
  deriving DecidableEq, Repr

/-- `NodeContext::new`. -/
def NodeContext.new (node_id workflow_id : Uuid) : NodeContext :=
  { node_id := node_id
    workflow_id := workflow_id
    state := .Pending
    retry_count := 0
    max_retries := 3
    last_error := none
    started_at := none
    completed_at := none
    server := none
    transitions := [] }

/-- `NodeContext::can_transition_to`. -/
def NodeContext.can_transition_to (ctx : NodeContext) (toSt : NodeState) : Bool :=
  ctx.state.valid_transitions.contains toSt

/-- `NodeContext::transition_with_reason`. The Rust method mutates
`&mut self` and returns `Result<StateTransition, StateError>`; the error
path returns before any mutation, so the embedding returns the (possibly
updated) context alongside the result. `now` stands for `Utc::now()`. -/
def NodeContext.transition_with_reason (ctx : NodeContext) (toSt : NodeState)
    (reason : Option String) (now : Instant) :
    Except StateError StateTransition × NodeContext :=
  if ctx.can_transition_to toSt then
    let t : StateTransition := { fromState := ctx.state, toState := toSt,
                                 timestamp := now, reason := reason }
    let ctx1 := { ctx with transitions := ctx.transitions ++ [t], state := toSt }
    let ctx2 :=
      match toSt with
      | .Running =>
          if ctx1.started_at.isNone then { ctx1 with started_at := some now } else ctx1
      | .Done | .Failed | .Cancelled => { ctx1 with completed_at := some now }
      | .Retrying => { ctx1 with retry_count := ctx1.retry_count + 1 }
      | _ => ctx1
    (.ok t, ctx2)
  else
    (.error (.InvalidTransition ctx.state toSt), ctx)

/-- `NodeContext::transition`. -/
def NodeContext.transition (ctx : NodeContext) (toSt : NodeState) (now : Instant) :
    Except StateError StateTransition × NodeContext :=
  ctx.transition_with_reason toSt none now

/-- `NodeContext::can_retry`. -/
def NodeContext.can_retry (ctx : NodeContext) : Bool :=
  ctx.state = .Failed ∧ ctx.retry_count < ctx.max_retries

/-- The legal transition set exactly as the claim states it:
Pending→Scheduled|Cancelled, Scheduled→Running|Failed|Cancelled,
Running→Done|Failed|Cancelled, Failed→Retrying|Cancelled,
Retrying→Scheduled|Cancelled, Done and Cancelled terminal. Stated
independently of `valid_transitions` so the claim theorem compares the
code against the spec's words. -/
def specLegalTransition : NodeState → NodeState → Bool
  | .Pending, .Scheduled | .Pending, .Cancelled => true
  | .Scheduled, .Running | .Scheduled, .Failed | .Scheduled, .Cancelled => true
  | .Running, .Done | .Running, .Failed | .Running, .Cancelled => true
  | .Failed, .Retrying | .Failed, .Cancelled => true
  | .Retrying, .Scheduled | .Retrying, .Cancelled => true
  | _, _ => false

/-! ## `HashMap` model -/

/-- `HashMap::get`: first-match lookup in the association list. -/
def mapGet {α β : Type} [DecidableEq α] : List (α × β) → α → Option β
  | [], _ => none
  | (k', v) :: rest, k => if k' = k then some v else mapGet rest k

/-- `HashMap::insert`: bind `k` to `v`, silently replacing any existing
binding for `k` and leaving all other bindings unchanged. -/
def insertAssoc {α β : Type} [DecidableEq α] (l : List (α × β)) (k : α) (v : β) :
    List (α × β) :=
  (k, v) :: l.filter (fun p => decide (p.1 ≠ k))

theorem mapGet_filter_ne {α β : Type} [DecidableEq α]
    (l : List (α × β)) (k a : α) (h : a ≠ k) :
    mapGet (l.filter (fun p => decide (p.1 ≠ k))) a = mapGet l a := by
  induction l with
  | nil => rfl
  | cons p rest ih =>
    by_cases hp : p.1 = k
    · have hpa : ¬ p.1 = a := by rw [hp]; exact fun hh => h (Eq.symm hh)
      simp only [List.filter_cons]
      rw [if_neg (by simp [hp])]
      rw [show mapGet (p :: rest) a = mapGet rest a from by simp [mapGet, hpa]]
      exact ih
    · simp only [List.filter_cons]
      rw [if_pos (by simp [hp])]
      by_cases hpa : p.1 = a
      · simp [mapGet, hpa]
      · simp only [mapGet]
        rw [if_neg hpa, if_neg hpa]
        exact ih

theorem mapGet_insertAssoc {α β : Type} [DecidableEq α]
    (l : List (α × β)) (k a : α) (v : β) :
    mapGet (insertAssoc l k v) a = if a = k then some v else mapGet l a := by
  by_cases h : a = k
  · subst h
    simp [insertAssoc, mapGet]
  · have hk : ¬ (k = a) := fun hh => h (Eq.symm hh)
    simp only [insertAssoc, mapGet, if_neg hk, if_neg h]
    exact mapGet_filter_ne l k a h

/-- `mapGet` hits exactly the pairs of the list when keys are unique. -/
theorem mapGet_eq_some_iff {α β : Type} [DecidableEq α]
    {l : List (α × β)} (h : (l.map Prod.fst).Nodup) (k : α) (v : β) :
    mapGet l k = some v ↔ (k, v) ∈ l := by
  induction l with
  | nil => simp [mapGet]
  | cons p rest ih =>
    simp only [List.map_cons, List.nodup_cons] at h
    by_cases hk : p.1 = k
    · subst hk
      constructor
      · intro hg
        simp [mapGet] at hg
        subst hg
        simp
      · intro hm
        rcases List.mem_cons.mp hm with h1 | h1
        · rw [← h1]
          simp [mapGet]
        · exact absurd (List.mem_map.mpr ⟨(p.1, v), h1, rfl⟩) h.1
    · constructor
      · intro hg
        simp [mapGet, hk] at hg
        exact List.mem_cons.mpr (Or.inr ((ih h.2 ).mp hg))
      · intro hm
        rcases List.mem_cons.mp hm with h1 | h1
        · exact absurd (congrArg Prod.fst h1.symm) hk
        · simp [mapGet, hk]
          exact (ih h.2).mpr h1

/-- `mapGet` only returns pairs of the list. -/
theorem mem_of_mapGet_eq_some {α β : Type} [DecidableEq α]
    {l : List (α × β)} {k : α} {v : β} (h : mapGet l k = some v) : (k, v) ∈ l := by
  induction l with
  | nil => simp [mapGet] at h
  | cons p rest ih =>
    by_cases hk : p.1 = k
    · simp [mapGet, hk] at h
      subst h
      exact List.mem_cons.mpr (Or.inl (by rw [← hk]))
    · simp [mapGet, hk] at h
      exact List.mem_cons.mpr (Or.inr (ih h))

/-! ## DAG model (`crates/core/src/dag.rs`) -/

/-- `NodeInput`. -/
structure NodeInput where
  name : String
  dtype : String
  required : Bool
  default : Option Json
  deriving DecidableEq, Repr

/-- `NodeOutput`. -/
structure NodeOutput where
  name : String
  dtype : String
  deriving DecidableEq, Repr

/-- `Position` (editor coordinates; the `f64` fields are opaque to every
claim and modelled as `ℚ`). -/
structure Position where
  x : ℚ
  y : ℚ
  deriving DecidableEq, Repr

/-- `WorkflowNode`. -/
structure WorkflowNode where
  id : Uuid
  node_type : String
  name : String
  config : Json
  inputs : List NodeInput
  outputs : List NodeOutput
  position : Position
  deriving DecidableEq, Repr

/-- `WorkflowEdge`. -/
structure WorkflowEdge where
  source_output : String
  target_input : String
  transform : Option String
  deriving DecidableEq, Repr

/-- `DagError`. -/
inductive DagError where
  | CycleDetected
  | NodeNotFound (id : Uuid)
  | EdgeNotFound (a b : Uuid)
  | InvalidEdge (msg : String)
  | ParseError (msg : String)
  | ValidationError (msg : String)
  | SerializationError (msg : String)
  deriving DecidableEq, Repr

/-- `WorkflowDag`. The petgraph `DiGraph` arena is modelled by the node
list (`NodeIndex` = position in `nodes`) plus the edge list of
`(source index, target index, weight)` triples; `node_indices` and
`contexts` are the two `HashMap`s of the source. -/
structure WorkflowDag where
  nodes : List WorkflowNode
  edges : List (Nat × Nat × WorkflowEdge)
  node_indices : List (Uuid × Nat)
  contexts : List (Uuid × NodeContext)
  workflow_id : Uuid
  deriving DecidableEq, Repr

/-- `WorkflowDag::with_id` (`new` draws a random v4 uuid, modelled by the
explicit `workflow_id` argument). -/
def WorkflowDag.with_id (workflow_id : Uuid) : WorkflowDag :=
  { nodes := [], edges := [], node_indices := [], contexts := [],
    workflow_id := workflow_id }

/-- `WorkflowDag::add_node`: insert into the graph arena, record the
uuid→index binding, and create a fresh execution context. (The Rust
method also returns the new `NodeIndex`; it equals `dag.nodes.length`.) -/
def WorkflowDag.add_node (dag : WorkflowDag) (node : WorkflowNode) : WorkflowDag :=
  let index := dag.nodes.length
  { dag with
    nodes := dag.nodes ++ [node]
    node_indices := insertAssoc dag.node_indices node.id index
    contexts := insertAssoc dag.contexts node.id (NodeContext.new node.id dag.workflow_id) }

/-- `WorkflowDag::add_edge`: looks up both endpoints in `node_indices`
(failing with `NodeNotFound`), then unconditionally appends the edge to
the graph. The source performs no cycle check and no port check. -/
def WorkflowDag.add_edge (dag : WorkflowDag) (fromId toId : Uuid)
    (edge : WorkflowEdge) : Except DagError WorkflowDag :=
  match mapGet dag.node_indices fromId with
  | none => .error (.NodeNotFound fromId)
  | some from_idx =>
    match mapGet dag.node_indices toId with
    | none => .error (.NodeNotFound toId)
    | some to_idx =>
      .ok { dag with edges := dag.edges ++ [(from_idx, to_idx, edge)] }

/-- `WorkflowDag::get_node`. -/
def WorkflowDag.get_node (dag : WorkflowDag) (node_id : Uuid) : Option WorkflowNode :=
  (mapGet dag.node_indices node_id).bind (fun idx => dag.nodes.get? idx)

/-- `WorkflowDag::get_context`. -/
def WorkflowDag.get_context (dag : WorkflowDag) (node_id : Uuid) : Option NodeContext :=
  mapGet dag.contexts node_id

/-- Dependency check used by `get_ready_nodes`: the incoming neighbor at
arena index `i` resolves to a node whose context state is `Done`
(`unwrap_or(false)` at every missing link). -/
def WorkflowDag.depDone (dag : WorkflowDag) (i : Nat) : Bool :=
  match dag.nodes.get? i with
  | some n =>
    match mapGet dag.contexts n.id with
    | some c => c.state == NodeState.Done
    | none => false
  | none => false

/-- Pending check used by `get_ready_nodes`:
`self.contexts.get(id).map(|c| c.state.can_schedule()).unwrap_or(false)`. -/
def WorkflowDag.ctxSchedulable (dag : WorkflowDag) (u : Uuid) : Bool :=
  match mapGet dag.contexts u with
  | some c => c.state.can_schedule
  | none => false

/-- `WorkflowDag::get_ready_nodes`: every entry of `node_indices` whose
context can be scheduled and whose incoming-edge sources are all `Done`. -/
def WorkflowDag.get_ready_nodes (dag : WorkflowDag) : List Uuid :=
  (dag.node_indices.filter fun p =>
    dag.ctxSchedulable p.1
    &&
    ((dag.edges.filter fun e => e.2.1 == p.2).all fun e => dag.depDone e.1)
  ).map Prod.fst

/-- `WorkflowDag::get_dependencies`: uuids of the one-hop incoming
neighbors (empty when the node is unknown). -/
def WorkflowDag.get_dependencies (dag : WorkflowDag) (node_id : Uuid) : List Uuid :=
  match mapGet dag.node_indices node_id with
  | none => []
  | some idx =>
    (dag.edges.filter fun e => e.2.1 == idx).filterMap
      (fun e => (dag.nodes.get? e.1).map (fun n => n.id))

/-- `WorkflowDag::node_ids`. -/
def WorkflowDag.node_ids (dag : WorkflowDag) : List Uuid :=
  dag.node_indices.map Prod.fst

/-- `WorkflowDag::node_count`. -/
def WorkflowDag.node_count (dag : WorkflowDag) : Nat := dag.nodes.length

/-- `WorkflowDag.edge_count`. -/
def WorkflowDag.edge_count (dag : WorkflowDag) : Nat := dag.edges.length

/-! ## Scheduler (`crates/core/src/scheduler.rs`) -/

/-- `RetryPolicy`. `backoff_multiplier` is an `f64`; it is carried
opaquely (as `ℚ`) because no statable claim computes with it. -/
structure RetryPolicy where
  max_retries : Nat
  backoff_ms : Nat
  backoff_multiplier : ℚ
  max_backoff_ms : Nat
  deriving DecidableEq, Repr

/-- `RetryPolicy::default`. -/
def RetryPolicy.defaults : RetryPolicy :=
  { max_retries := 3, backoff_ms := 1000, backoff_multiplier := 2,
    max_backoff_ms := 30000 }

/-- `ServerInfo` (`current_load` is an `f64` used only for ordering
comparisons; modelled as `ℚ`). -/
structure ServerInfo where
  address : String
  available_memory : Nat
  gpu_available : Bool
  current_load : ℚ
  capabilities : List String
  loaded_models : List String
  healthy : Bool
  deriving DecidableEq, Repr

/-- `ServerInfo::new`. -/
def ServerInfo.new (address : String) : ServerInfo :=
  { address := address, available_memory := 0, gpu_available := false,
    current_load := 0, capabilities := [], loaded_models := [],
    healthy := true }

/-- Rust `str::starts_with`, modelled on the character list (Lean's own
byte-based version does not reduce in the kernel). -/
def strStartsWith (s pre : String) : Bool := pre.data.isPrefixOf s.data

/-- `ServerInfo::supports`: wildcard when `capabilities` is empty,
otherwise some capability is a string prefix of `node_type`. -/
def ServerInfo.supports (s : ServerInfo) (node_type : String) : Bool :=
  s.capabilities.isEmpty || s.capabilities.any (fun c => strStartsWith node_type c)

/-- `ServerInfo::has_model`. -/
def ServerInfo.has_model (s : ServerInfo) (model_id : String) : Bool :=
  s.loaded_models.any (fun m => m == model_id)

/-- `SchedulingDecision`. -/
structure SchedulingDecision where
  node_id : Uuid
  target_server : String
  priority : Nat
  affinity_reason : Option String
  estimated_duration_ms : Option Nat
  deriving DecidableEq, Repr

/-- `SchedulingStrategy`. -/
inductive SchedulingStrategy where
  | RoundRobin
  | LeastLoaded
  | DataAffinity
  | SessionAffinity
  | Random
  deriving DecidableEq, Repr

/-- `Scheduler`. The `event_tx` channel is pure plumbing (never consulted
by any claim) and is not modelled. -/
structure Scheduler where
  servers : List (String × ServerInfo)
  retry_policy : RetryPolicy
  strategy : SchedulingStrategy
  rr_index : Nat
  session_affinities : List (Uuid × String)
  deriving DecidableEq, Repr

/-- `Scheduler::new`. -/
def Scheduler.new (retry_policy : RetryPolicy) : Scheduler :=
  { servers := [], retry_policy := retry_policy, strategy := .RoundRobin,
    rr_index := 0, session_affinities := [] }

/-- `Scheduler::register_server`: `HashMap::insert` keyed by the server's
address. The Rust function returns `()` — it is total and can produce no
duplicate-address (or any other) error. -/
def Scheduler.register_server (s : Scheduler) (server : ServerInfo) : Scheduler :=
  { s with servers := insertAssoc s.servers server.address server }

/-- `Scheduler::update_server` — textually the same insert. -/
def Scheduler.update_server (s : Scheduler) (server : ServerInfo) : Scheduler :=
  { s with servers := insertAssoc s.servers server.address server }

/-- `Scheduler::get_server`. -/
def Scheduler.get_server (s : Scheduler) (address : String) : Option ServerInfo :=
  mapGet s.servers address

/-- `Iterator::min_by` over `current_load` as `schedule_node` uses it:
the first strictly-smallest element wins. (The source unwraps a
`partial_cmp`, a panic only reachable through NaN loads, which the `ℚ`
model excludes.) -/
def minByLoad (l : List ServerInfo) : Option ServerInfo :=
  l.foldl
    (fun acc x =>
      match acc with
      | none => some x
      | some m => if x.current_load < m.current_load then some x else acc)
    none

/-- `Scheduler::schedule_node`. Mirrors the source: the node must exist in
the DAG, candidates are filtered by `healthy` ONLY (`supports` is never
consulted), and the strategy picks among them; `&mut self` (the
round-robin cursor) is returned alongside the decision. The `values()`
iteration order of the registry `HashMap` is modelled by list order. The
`LeastLoaded` arm unwraps a minimum that exists because the candidate
list is non-empty; the unreachable empty case returns `none`. -/
def Scheduler.schedule_node (s : Scheduler) (node_id : Uuid) (dag : WorkflowDag) :
    Option SchedulingDecision × Scheduler :=
  match dag.get_node node_id with
  | none => (none, s)
  | some _ =>
    let healthy_servers := (s.servers.map Prod.snd).filter (fun x => x.healthy)
    if h : healthy_servers.length = 0 then (none, s)
    else
      match s.strategy with
      | .RoundRobin =>
        let idx := s.rr_index % healthy_servers.length
        let s' := { s with rr_index := (s.rr_index + 1) % healthy_servers.length }
        (some { node_id := node_id
                target_server :=
                  (healthy_servers.get ⟨idx, Nat.mod_lt _ (Nat.pos_of_ne_zero h)⟩).address
                priority := 0
                affinity_reason := none
                estimated_duration_ms := none }, s')
      | .LeastLoaded =>
        match minByLoad healthy_servers with
        | some srv =>
          (some { node_id := node_id, target_server := srv.address, priority := 0,
                  affinity_reason := some "least loaded",
                  estimated_duration_ms := none }, s)
        | none => (none, s)
      | _ =>
        (some { node_id := node_id
                target_server :=
                  (healthy_servers.get ⟨0, Nat.pos_of_ne_zero h⟩).address
                priority := 0
                affinity_reason := none
                estimated_duration_ms := none }, s)

/-! ## Workflow context (`crates/core/src/state.rs`, lines 234-318) -/

/-- `WorkflowState`. -/
inductive WorkflowState where
  | Pending
  | Running
  | Completed
  | Failed
  | Cancelled
  deriving DecidableEq, Repr

/-- `WorkflowContext` (the node map is the usual association list). -/
structure WorkflowContext where
  workflow_id : Uuid
  execution_id : Uuid
  name : String
  state : WorkflowState
  started_at : Instant
  completed_at : Option Instant
  nodes : List (Uuid × NodeContext)
  deriving DecidableEq, Repr

/-- `WorkflowContext::progress`: `0.0` on an empty node map, otherwise
terminal count over total count. The source divides two counts as `f64`;
the division is modelled exactly in `ℚ`. -/
def WorkflowContext.progress (w : WorkflowContext) : ℚ :=
  if w.nodes.isEmpty then 0
  else ((w.nodes.filter (fun p => p.2.state.is_terminal)).length : ℚ) /
       (w.nodes.length : ℚ)

/-- `WorkflowContext::is_complete`. -/
def WorkflowContext.is_complete (w : WorkflowContext) : Bool :=
  w.nodes.all (fun p => p.2.state.is_terminal)

/-! ## Event log (`crates/events/src/wal.rs`, `types.rs`) -/

/-- `Event` — the tagged lifecycle enum of `types.rs`. Every claim treats
the payload opaquely, so it is modelled as its serialized text. -/
abbrev Event := String

/-- `EventEnvelope` (`types.rs`). -/
structure EventEnvelope where
  id : Uuid
  sequence : Nat
  event : Event
  created_at : Instant
  deriving DecidableEq, Repr

/-- `WriteAheadLog`: the SQLite `events` table is modelled by the list of
persisted envelopes; `next_sequence` is the in-struct counter. -/
structure WriteAheadLog where
  records : List EventEnvelope
  next_sequence : Nat
  deriving DecidableEq, Repr

/-- `WriteAheadLog::open` / the shared setup it delegates to: on open the
log computes `SELECT COALESCE(MAX(sequence), 0) + 1 FROM events` over the
existing records and stores it as `next_sequence`. -/
def WriteAheadLog.openFrom (records : List EventEnvelope) : WriteAheadLog :=
  { records := records
    next_sequence := (records.map (fun e => e.sequence)).foldr max 0 + 1 }

/-- `WriteAheadLog::in_memory`: a fresh empty database. -/
def WriteAheadLog.in_memory : WriteAheadLog := WriteAheadLog.openFrom []

/-- `WriteAheadLog::last_sequence`: `next_sequence.saturating_sub(1)`
(`Nat` subtraction saturates). -/
def WriteAheadLog.last_sequence (wal : WriteAheadLog) : Nat :=
  wal.next_sequence - 1

/-- `WriteAheadLog::peek_next_sequence`. -/
def WriteAheadLog.peek_next_sequence (wal : WriteAheadLog) : Nat :=
  wal.next_sequence

/-- Modelled from the spec: `WriteAheadLog::append` in `wal.rs` is an
unimplemented stub (`todo!("Implement event append")`), so its body is
taken from §4.1: "append(event) → envelope: assigns the next sequence,
persists envelope atomically (write is durable before return), returns
the envelope". `id` and `now` stand for the envelope's fresh
`Uuid::new_v4()` and `Utc::now()`. -/
def WriteAheadLog.append (wal : WriteAheadLog) (event : Event) (id : Uuid)
    (now : Instant) : EventEnvelope × WriteAheadLog :=
  let env : EventEnvelope :=
    { id := id, sequence := wal.next_sequence, event := event, created_at := now }
  (env, { records := wal.records ++ [env], next_sequence := wal.next_sequence + 1 })

/-- Modelled from the spec: `WriteAheadLog::append_batch` is an
unimplemented stub; §4.1: "append_batch(events) → envelopes: appends
atomically; either all sequences are committed or none". In the pure
model atomicity is automatic and the batch is the fold of single
appends. -/
def WriteAheadLog.append_batch (wal : WriteAheadLog) :
    List (Event × Uuid × Instant) → List EventEnvelope × WriteAheadLog
  | [] => ([], wal)
  | e :: rest =>
    let r1 := wal.append e.1 e.2.1 e.2.2
    let r2 := r1.2.append_batch rest
    (r1.1 :: r2.1, r2.2)

/-- One client interaction with the log: a single `append` or an
`append_batch`. -/
inductive WalOp where
  | one (event : Event) (id : Uuid) (now : Instant)
  | batch (events : List (Event × Uuid × Instant))

/-- Envelopes produced by one operation, with the resulting log. -/
def WriteAheadLog.applyOp (wal : WriteAheadLog) :
    WalOp → List EventEnvelope × WriteAheadLog
  | .one event id now =>
    let r := wal.append event id now
    ([r.1], r.2)
  | .batch events => wal.append_batch events

/-- The trace of envelopes handed out by a sequence of appends, in the
order they were appended. -/
def WriteAheadLog.runOps (wal : WriteAheadLog) :
    List WalOp → List EventEnvelope × WriteAheadLog
  | [] => ([], wal)
  | op :: rest =>
    let r1 := wal.applyOp op
    let r2 := r1.2.runOps rest
    (r1.1 ++ r2.1, r2.2)

/-! ## Theorems -/

theorem can_transition_eq_specLegal (a b : NodeState) :
    (NodeState.valid_transitions a).contains b = specLegalTransition a b := by
  cases a <;> cases b <;> rfl

/-- C2: for every `NodeContext` and target state, `transition_with_reason`
(and hence `transition`) returns `InvalidTransition{from: current, to}`
with the context unchanged exactly when `(current, to)` is outside the
legal set {Pending→Scheduled|Cancelled, Scheduled→Running|Failed|Cancelled,
Running→Done|Failed|Cancelled, Failed→Retrying|Cancelled,
Retrying→Scheduled|Cancelled, Done/Cancelled terminal}; in particular
`transition(Done)` on a fresh `Pending` node yields
`InvalidTransition{from: Pending, to: Done}` and leaves it untouched. -/
theorem c2_invalid_transition_iff (ctx : NodeContext) (toSt : NodeState)
    (reason : Option String) (now : Instant) :
    ((ctx.transition_with_reason toSt reason now).1
        = Except.error (StateError.InvalidTransition ctx.state toSt)
      ↔ specLegalTransition ctx.state toSt = false)
    ∧ (∀ e, (ctx.transition_with_reason toSt reason now).1 = Except.error e →
        e = StateError.InvalidTransition ctx.state toSt
        ∧ (ctx.transition_with_reason toSt reason now).2 = ctx)
    ∧ (NodeContext.new 0 0).transition NodeState.Done 0
        = (Except.error (StateError.InvalidTransition NodeState.Pending NodeState.Done),
           NodeContext.new 0 0) := by
  have hb : ctx.can_transition_to toSt = specLegalTransition ctx.state toSt :=
    can_transition_eq_specLegal ctx.state toSt
  by_cases hc : ctx.can_transition_to toSt = true
  · have hleg : specLegalTransition ctx.state toSt = true := hb ▸ hc
    refine ⟨?_, ?_, rfl⟩
    · simp [NodeContext.transition_with_reason, hc, hleg]
    · intro e he
      simp [NodeContext.transition_with_reason, hc] at he
  · have hcf : ctx.can_transition_to toSt = false := by
      cases hx : ctx.can_transition_to toSt
      · rfl
      · exact absurd hx hc
    have hleg : specLegalTransition ctx.state toSt = false := hb ▸ hcf
    refine ⟨?_, ?_, rfl⟩
    · simp [NodeContext.transition_with_reason, hcf, hleg]
    · intro e he
      simp [NodeContext.transition_with_reason, hcf] at he
      exact ⟨he.symm, by simp [NodeContext.transition_with_reason, hcf]⟩

/-- Witness for C2 at a concrete input: `transition(Done)` on a fresh
`Pending` context at time 0. -/
theorem c2_invalid_transition_iff_witness :
    (((NodeContext.new 0 0).transition_with_reason NodeState.Done none 0).1
        = Except.error
            (StateError.InvalidTransition (NodeContext.new 0 0).state NodeState.Done)
      ↔ specLegalTransition (NodeContext.new 0 0).state NodeState.Done = false)
    ∧ (∀ e, ((NodeContext.new 0 0).transition_with_reason NodeState.Done none 0).1
          = Except.error e →
        e = StateError.InvalidTransition (NodeContext.new 0 0).state NodeState.Done
        ∧ ((NodeContext.new 0 0).transition_with_reason NodeState.Done none 0).2
            = NodeContext.new 0 0)
    ∧ (NodeContext.new 0 0).transition NodeState.Done 0
        = (Except.error (StateError.InvalidTransition NodeState.Pending NodeState.Done),
           NodeContext.new 0 0) :=
  c2_invalid_transition_iff (NodeContext.new 0 0) NodeState.Done none 0

/-- C7: every successful transition appends exactly one history record
`(from = old state, to = new state)` and updates `state`; entering
`Running` sets `started_at` only if it was unset; entering a terminal
state sets `completed_at`; entering `Retrying` increments `retry_count`
by exactly one and no other transition changes it. -/
theorem c7_transition_side_effects (ctx : NodeContext) (toSt : NodeState)
    (reason : Option String) (now : Instant)
    (h : ctx.can_transition_to toSt = true) :
    (ctx.transition_with_reason toSt reason now).1
        = Except.ok { fromState := ctx.state, toState := toSt,
                      timestamp := now, reason := reason }
    ∧ (ctx.transition_with_reason toSt reason now).2.transitions
        = ctx.transitions ++ [{ fromState := ctx.state, toState := toSt,
                                timestamp := now, reason := reason }]
    ∧ (ctx.transition_with_reason toSt reason now).2.state = toSt
    ∧ (toSt = NodeState.Running → ctx.started_at = none →
        (ctx.transition_with_reason toSt reason now).2.started_at = some now)
    ∧ (toSt = NodeState.Running → ctx.started_at ≠ none →
        (ctx.transition_with_reason toSt reason now).2.started_at = ctx.started_at)
    ∧ (toSt.is_terminal = true →
        (ctx.transition_with_reason toSt reason now).2.completed_at = some now)
    ∧ (ctx.transition_with_reason toSt reason now).2.retry_count
        = (if toSt = NodeState.Retrying then ctx.retry_count + 1
           else ctx.retry_count) := by
  cases toSt <;>
    simp [NodeContext.transition_with_reason, h, NodeState.is_terminal]
  all_goals cases hsa : ctx.started_at <;> simp [hsa]

/-- Witness for C7 at a concrete input: a fresh `Pending` context
successfully transitions to `Scheduled` at time 3. -/
theorem c7_transition_side_effects_witness :
    ((NodeContext.new 0 0).transition_with_reason NodeState.Scheduled none 3).1
        = Except.ok { fromState := NodeState.Pending, toState := NodeState.Scheduled,
                      timestamp := 3, reason := none }
    ∧ ((NodeContext.new 0 0).transition_with_reason NodeState.Scheduled none 3).2.transitions
        = [] ++ [{ fromState := NodeState.Pending, toState := NodeState.Scheduled,
                   timestamp := 3, reason := none }]
    ∧ ((NodeContext.new 0 0).transition_with_reason NodeState.Scheduled none 3).2.state
        = NodeState.Scheduled
    ∧ (NodeState.Scheduled = NodeState.Running → (NodeContext.new 0 0).started_at = none →
        ((NodeContext.new 0 0).transition_with_reason NodeState.Scheduled none 3).2.started_at
          = some 3)
    ∧ (NodeState.Scheduled = NodeState.Running → (NodeContext.new 0 0).started_at ≠ none →
        ((NodeContext.new 0 0).transition_with_reason NodeState.Scheduled none 3).2.started_at
          = (NodeContext.new 0 0).started_at)
    ∧ (NodeState.Scheduled.is_terminal = true →
        ((NodeContext.new 0 0).transition_with_reason NodeState.Scheduled none 3).2.completed_at
          = some 3)
    ∧ ((NodeContext.new 0 0).transition_with_reason NodeState.Scheduled none 3).2.retry_count
        = (if NodeState.Scheduled = NodeState.Retrying
           then (NodeContext.new 0 0).retry_count + 1
           else (NodeContext.new 0 0).retry_count) :=
  c7_transition_side_effects (NodeContext.new 0 0) NodeState.Scheduled none 3 (by decide)

/-! ### C1: `add_edge` and cycles -/

/-- `NodeBuilder::new(t, n).id(id).build()`: a node with no ports. -/
def buildNode (id : Uuid) (node_type name : String) : WorkflowNode :=
  { id := id, node_type := node_type, name := name, config := "",
    inputs := [], outputs := [], position := { x := 0, y := 0 } }

/-- The edge weight used throughout the source tests. -/
def edgeW : WorkflowEdge :=
  { source_output := "out", target_input := "in", transform := none }

/-- Test-harness helper mirroring the `.unwrap()` the source tests apply
to `add_edge` results. -/
def addEdgeU (dag : WorkflowDag) (fromId toId : Uuid) (edge : WorkflowEdge) :
    WorkflowDag :=
  match dag.add_edge fromId toId edge with
  | .ok d => d
  | .error _ => dag

/-- The chain A→B→C of the spec's cycle-rejection scenario: nodes with
uuids 1, 2, 3 at arena indices 0, 1, 2 and edges A→B, B→C. -/
def chainDag : WorkflowDag :=
  addEdgeU
    (addEdgeU
      ((((WorkflowDag.with_id 0).add_node (buildNode 1 "test.a" "A")).add_node
          (buildNode 2 "test.b" "B")).add_node (buildNode 3 "test.c" "C"))
      1 2 edgeW)
    2 3 edgeW

/-- C1 (code-bug evidence): on the chain A→B→C, `add_edge(C, A)` — the
exact call the spec says returns `CycleDetected` with the graph
unchanged — succeeds: the source checks only that both endpoints exist
and appends the edge unconditionally, so the result is `Ok` and the edge
list grows from the two chain edges to three, the third closing the
cycle 0→1→2→0 in arena indices. The node set is untouched. -/
theorem c1_add_edge_accepts_cycle :
    chainDag.edges = [(0, 1, edgeW), (1, 2, edgeW)]
    ∧ (chainDag.add_edge 3 1 edgeW).isOk = true
    ∧ (chainDag.add_edge 3 1 edgeW).toOption.map WorkflowDag.edges
        = some [(0, 1, edgeW), (1, 2, edgeW), (2, 0, edgeW)]
    ∧ (chainDag.add_edge 3 1 edgeW).toOption.map WorkflowDag.nodes
        = some chainDag.nodes :=
  ⟨rfl, rfl, rfl, rfl⟩

/-! ### C3: readiness characterization -/

theorem can_schedule_iff (s : NodeState) :
    s.can_schedule = true ↔ (s = NodeState.Pending ∨ s = NodeState.Retrying) := by
  cases s <;> simp [NodeState.can_schedule]

theorem ctxSchedulable_iff (dag : WorkflowDag) (u : Uuid) :
    dag.ctxSchedulable u = true ↔
      ∃ c, mapGet dag.contexts u = some c
        ∧ (c.state = NodeState.Pending ∨ c.state = NodeState.Retrying) := by
  unfold WorkflowDag.ctxSchedulable
  cases h : mapGet dag.contexts u with
  | none => simp
  | some c => simpa using can_schedule_iff c.state

theorem depDone_iff (dag : WorkflowDag) (i : Nat) :
    dag.depDone i = true ↔
      ∃ m, dag.nodes.get? i = some m
        ∧ ∃ c, mapGet dag.contexts m.id = some c ∧ c.state = NodeState.Done := by
  unfold WorkflowDag.depDone
  cases h1 : dag.nodes.get? i with
  | none => simp
  | some m =>
    cases h2 : mapGet dag.contexts m.id with
    | none => simp [h2]
    | some c => simp [h2, beq_iff_eq]

theorem ready_mem_iff (dag : WorkflowDag)
    (hk : (dag.node_indices.map Prod.fst).Nodup) (n : Uuid) :
    n ∈ dag.get_ready_nodes ↔
      ∃ idx, mapGet dag.node_indices n = some idx
        ∧ dag.ctxSchedulable n = true
        ∧ ((dag.edges.filter fun e => e.2.1 == idx).all fun e => dag.depDone e.1)
            = true := by
  unfold WorkflowDag.get_ready_nodes
  simp only [List.mem_map, List.mem_filter, Bool.and_eq_true]
  constructor
  · rintro ⟨⟨u, idx⟩, ⟨hmem, hc1, hc2⟩, rfl⟩
    exact ⟨idx, (mapGet_eq_some_iff hk u idx).mpr hmem, hc1, hc2⟩
  · rintro ⟨idx, hget, hc1, hc2⟩
    exact ⟨(n, idx), ⟨mem_of_mapGet_eq_some hget, hc1, hc2⟩, rfl⟩

/-- C3: `get_ready_nodes` returns exactly the node ids whose context
state is schedulable (Pending or Retrying) and all of whose
incoming-edge source nodes have context state `Done`; in particular
every predecessor (`get_dependencies`) of any returned node has context
state `Done`. (`node_indices` models a `HashMap`, so its keys are
assumed duplicate-free.) -/
theorem c3_ready_nodes_characterization (dag : WorkflowDag)
    (hk : (dag.node_indices.map Prod.fst).Nodup) (n : Uuid) :
    (n ∈ dag.get_ready_nodes ↔
      ∃ idx, mapGet dag.node_indices n = some idx
        ∧ (∃ c, mapGet dag.contexts n = some c
            ∧ (c.state = NodeState.Pending ∨ c.state = NodeState.Retrying))
        ∧ (∀ e ∈ dag.edges, e.2.1 = idx →
            ∃ m, dag.nodes.get? e.1 = some m
              ∧ ∃ c, mapGet dag.contexts m.id = some c
                  ∧ c.state = NodeState.Done))
    ∧ (n ∈ dag.get_ready_nodes →
        ∀ p ∈ dag.get_dependencies n,
          ∃ c, mapGet dag.contexts p = some c ∧ c.state = NodeState.Done) := by
  have hiff : n ∈ dag.get_ready_nodes ↔
      ∃ idx, mapGet dag.node_indices n = some idx
        ∧ (∃ c, mapGet dag.contexts n = some c
            ∧ (c.state = NodeState.Pending ∨ c.state = NodeState.Retrying))
        ∧ (∀ e ∈ dag.edges, e.2.1 = idx →
            ∃ m, dag.nodes.get? e.1 = some m
              ∧ ∃ c, mapGet dag.contexts m.id = some c
                  ∧ c.state = NodeState.Done) := by
    rw [ready_mem_iff dag hk n]
    constructor
    · rintro ⟨idx, hget, hc1, hc2⟩
      refine ⟨idx, hget, (ctxSchedulable_iff dag n).mp hc1, ?_⟩
      intro e he htgt
      have := (List.all_eq_true.mp hc2) e
        (List.mem_filter.mpr ⟨he, beq_iff_eq.mpr htgt⟩)
      exact (depDone_iff dag e.1).mp this
    · rintro ⟨idx, hget, hc1, hc2⟩
      refine ⟨idx, hget, (ctxSchedulable_iff dag n).mpr hc1, ?_⟩
      refine List.all_eq_true.mpr ?_
      intro e he
      rcases List.mem_filter.mp he with ⟨he', htgt⟩
      exact (depDone_iff dag e.1).mpr (hc2 e he' (beq_iff_eq.mp htgt))
  refine ⟨hiff, ?_⟩
  intro hn p hp
  rcases hiff.mp hn with ⟨idx, hget, _, hdeps⟩
  unfold WorkflowDag.get_dependencies at hp
  rw [hget] at hp
  rcases List.mem_filterMap.mp hp with ⟨e, he, hmap⟩
  rcases List.mem_filter.mp he with ⟨he', htgt⟩
  rcases Option.map_eq_some'.mp hmap with ⟨m, hm, hid⟩
  rcases hdeps e he' (beq_iff_eq.mp htgt) with ⟨m', hm', c, hc, hdone⟩
  rw [hm] at hm'
  cases hm'
  exact ⟨c, hid ▸ hc, hdone⟩

/-- Concrete DAG for the C3 witness: A (uuid 1) → B (uuid 2), with A's
context driven to `Done` (as `get_context_mut` permits) so that B is
ready. -/
def dagReady : WorkflowDag :=
  let base :=
    addEdgeU
      (((WorkflowDag.with_id 0).add_node (buildNode 1 "test.a" "A")).add_node
        (buildNode 2 "test.b" "B"))
      1 2 edgeW
  { base with
    contexts := insertAssoc base.contexts 1
      { NodeContext.new 1 0 with state := NodeState.Done } }

/-- Witness for C3 at a concrete input: node 2 of `dagReady`. -/
theorem c3_ready_nodes_witness :
    (2 ∈ dagReady.get_ready_nodes ↔
      ∃ idx, mapGet dagReady.node_indices 2 = some idx
        ∧ (∃ c, mapGet dagReady.contexts 2 = some c
            ∧ (c.state = NodeState.Pending ∨ c.state = NodeState.Retrying))
        ∧ (∀ e ∈ dagReady.edges, e.2.1 = idx →
            ∃ m, dagReady.nodes.get? e.1 = some m
              ∧ ∃ c, mapGet dagReady.contexts m.id = some c
                  ∧ c.state = NodeState.Done))
    ∧ (2 ∈ dagReady.get_ready_nodes →
        ∀ p ∈ dagReady.get_dependencies 2,
          ∃ c, mapGet dagReady.contexts p = some c ∧ c.state = NodeState.Done) :=
  c3_ready_nodes_characterization dagReady (by decide) 2

/-! ### C4: `schedule_node` and capabilities -/

/-- A healthy registered server that only handles `ai.`-prefixed node
types. -/
def srvAI : ServerInfo :=
  { address := "s1", available_memory := 0, gpu_available := false,
    current_load := 0, capabilities := ["ai."], loaded_models := [],
    healthy := true }

/-- A one-node DAG whose node (uuid 7) has node type `http.request`. -/
def dagHttp : WorkflowDag :=
  (WorkflowDag.with_id 0).add_node (buildNode 7 "http.request" "H")

/-- The scheduler with `srvAI` as its only registered server. -/
def schedAI : Scheduler :=
  (Scheduler.new RetryPolicy.defaults).register_server srvAI

/-- C4 (code-bug evidence): node 7 (`http.request`) is present in the
DAG, and no registered server is both healthy and capable of it (`srvAI`
is healthy but `supports "http.request"` is false) — yet `schedule_node`
returns `Some` decision targeting `srvAI`: the source filters candidates
by `healthy` only and never consults `supports`. The claim demands
`None` here. -/
theorem c4_schedule_node_ignores_capability :
    srvAI.supports "http.request" = false
    ∧ (∀ p ∈ schedAI.servers,
        ¬(p.2.healthy = true ∧ p.2.supports "http.request" = true))
    ∧ (dagHttp.get_node 7).map WorkflowNode.node_type = some "http.request"
    ∧ (schedAI.schedule_node 7 dagHttp).1
        = some { node_id := 7, target_server := "s1", priority := 0,
                 affinity_reason := none, estimated_duration_ms := none } := by
  refine ⟨by decide, by decide, rfl, rfl⟩

/-! ### C10: registry insert semantics -/

/-- C10: `register_server` and `update_server` store the server under its
address, silently replacing any existing registration at that address
(no duplicate-address error exists — both functions are total), and leave
every other address untouched. -/
theorem c10_register_server_replaces (s : Scheduler)
    (server server2 : ServerInfo) (a : String) :
    (s.register_server server).get_server server.address = some server
    ∧ (a ≠ server.address →
        (s.register_server server).get_server a = s.get_server a)
    ∧ (s.update_server server).get_server server.address = some server
    ∧ (a ≠ server.address →
        (s.update_server server).get_server a = s.get_server a)
    ∧ (server2.address = server.address →
        ((s.register_server server).register_server server2).get_server
            server.address = some server2) := by
  refine ⟨?_, ?_, ?_, ?_, ?_⟩
  · simp [Scheduler.register_server, Scheduler.get_server, mapGet_insertAssoc]
  · intro h
    simp [Scheduler.register_server, Scheduler.get_server, mapGet_insertAssoc, h]
  · simp [Scheduler.update_server, Scheduler.get_server, mapGet_insertAssoc]
  · intro h
    simp [Scheduler.update_server, Scheduler.get_server, mapGet_insertAssoc, h]
  · intro h
    simp [Scheduler.register_server, Scheduler.get_server, mapGet_insertAssoc, h]

/-- Witness for C10 at concrete inputs: registering `s1`, an updated
`s1` record, and frame address `s2`. -/
theorem c10_register_server_witness :
    ((Scheduler.new RetryPolicy.defaults).register_server
        (ServerInfo.new "s1")).get_server (ServerInfo.new "s1").address
      = some (ServerInfo.new "s1")
    ∧ ("s2" ≠ (ServerInfo.new "s1").address →
        ((Scheduler.new RetryPolicy.defaults).register_server
            (ServerInfo.new "s1")).get_server "s2"
          = (Scheduler.new RetryPolicy.defaults).get_server "s2")
    ∧ ((Scheduler.new RetryPolicy.defaults).update_server
        (ServerInfo.new "s1")).get_server (ServerInfo.new "s1").address
      = some (ServerInfo.new "s1")
    ∧ ("s2" ≠ (ServerInfo.new "s1").address →
        ((Scheduler.new RetryPolicy.defaults).update_server
            (ServerInfo.new "s1")).get_server "s2"
          = (Scheduler.new RetryPolicy.defaults).get_server "s2")
    ∧ (({ ServerInfo.new "s1" with healthy := false } : ServerInfo).address
          = (ServerInfo.new "s1").address →
        (((Scheduler.new RetryPolicy.defaults).register_server
            (ServerInfo.new "s1")).register_server
            { ServerInfo.new "s1" with healthy := false }).get_server
            (ServerInfo.new "s1").address
          = some { ServerInfo.new "s1" with healthy := false }) :=
  c10_register_server_replaces (Scheduler.new RetryPolicy.defaults)
    (ServerInfo.new "s1") { ServerInfo.new "s1" with healthy := false } "s2"

/-! ### C5: gapless sequences -/

theorem append_batch_spec (wal : WriteAheadLog) (es : List (Event × Uuid × Instant)) :
    ((wal.append_batch es).1).map EventEnvelope.sequence
        = List.range' wal.next_sequence es.length
    ∧ (wal.append_batch es).2.next_sequence = wal.next_sequence + es.length := by
  induction es generalizing wal with
  | nil => simp [WriteAheadLog.append_batch]
  | cons e rest ih =>
    obtain ⟨ih1, ih2⟩ := ih (wal.append e.1 e.2.1 e.2.2).2
    constructor
    · simp only [WriteAheadLog.append_batch, List.map_cons, List.length_cons,
        List.range'_succ]
      refine congrArg₂ List.cons rfl ?_
      simpa [WriteAheadLog.append] using ih1
    · simp only [WriteAheadLog.append_batch, List.length_cons]
      rw [show (wal.append e.1 e.2.1 e.2.2).2.next_sequence
            = wal.next_sequence + 1 from rfl] at ih2
      omega

theorem applyOp_spec (wal : WriteAheadLog) (op : WalOp) :
    ((wal.applyOp op).1).map EventEnvelope.sequence
        = List.range' wal.next_sequence ((wal.applyOp op).1).length
    ∧ (wal.applyOp op).2.next_sequence
        = wal.next_sequence + ((wal.applyOp op).1).length := by
  cases op with
  | one event id now =>
    constructor
    · simp [WriteAheadLog.applyOp, WriteAheadLog.append, List.range'_succ]
    · rfl
  | batch events =>
    obtain ⟨h1, h2⟩ := append_batch_spec wal events
    have hlen : ((wal.append_batch events).1).length = events.length := by
      have := congrArg List.length h1
      simpa using this
    constructor
    · simpa [WriteAheadLog.applyOp, hlen] using h1
    · simpa [WriteAheadLog.applyOp, hlen] using h2

theorem runOps_spec (wal : WriteAheadLog) (ops : List WalOp) :
    ((wal.runOps ops).1).map EventEnvelope.sequence
        = List.range' wal.next_sequence ((wal.runOps ops).1).length
    ∧ (wal.runOps ops).2.next_sequence
        = wal.next_sequence + ((wal.runOps ops).1).length := by
  induction ops generalizing wal with
  | nil => simp [WriteAheadLog.runOps]
  | cons op rest ih =>
    obtain ⟨h1, h2⟩ := applyOp_spec wal op
    obtain ⟨h3, h4⟩ := ih (wal.applyOp op).2
    have hsplit :
        (wal.runOps (op :: rest)).1
          = (wal.applyOp op).1 ++ ((wal.applyOp op).2.runOps rest).1 := rfl
    constructor
    · rw [hsplit, List.map_append, h1, h3, h2, List.length_append]
      have := List.range'_append wal.next_sequence ((wal.applyOp op).1).length
        (((wal.applyOp op).2.runOps rest).1).length 1
      simp only [one_mul] at this
      rw [Nat.add_comm ((wal.applyOp op).1.length)
        ((((wal.applyOp op).2.runOps rest).1).length)]
      exact this
    · rw [hsplit, List.length_append]
      have : (wal.runOps (op :: rest)).2 = ((wal.applyOp op).2.runOps rest).2 := rfl
      rw [this, h4, h2]
      omega

/-- C5: sequence numbers are gapless and strictly increasing — across any
series of `append` / `append_batch` calls starting from any log state,
each envelope appended immediately after another carries its sequence
plus one. -/
theorem c5_sequences_gapless (wal : WriteAheadLog) (ops : List WalOp)
    (i : Nat) (h : i + 1 < ((wal.runOps ops).1).length) :
    (((wal.runOps ops).1).get ⟨i, by omega⟩).sequence + 1
      = (((wal.runOps ops).1).get ⟨i + 1, h⟩).sequence := by
  have hs := (runOps_spec wal ops).1
  have hget : ∀ (j : Nat) (hj : j < ((wal.runOps ops).1).length),
      (((wal.runOps ops).1).get ⟨j, hj⟩).sequence = wal.next_sequence + j := by
    intro j hj
    have hj' : j < (((wal.runOps ops).1).map EventEnvelope.sequence).length := by
      simpa using hj
    have hmap := List.get_map EventEnvelope.sequence
      (l := (wal.runOps ops).1) (n := ⟨j, hj'⟩)
    rw [List.get_of_eq hs ⟨j, hj'⟩] at hmap
    rw [← hmap]
    have hr : j < (List.range' wal.next_sequence
        (((wal.runOps ops).1).length) 1).length := by
      rw [List.length_range']
      simpa using hj
    have hg := List.get_range' j hr
    rw [one_mul] at hg
    exact hg
  rw [hget i (by omega), hget (i + 1) h]
  omega

/-- Witness for C5 at a concrete input: a fresh log, one single append
followed by a batch of two, checked at the middle pair. -/
theorem c5_sequences_gapless_witness :
    ((WriteAheadLog.in_memory.runOps
        [WalOp.one "e1" 10 0, WalOp.batch [("e2", 11, 0), ("e3", 12, 0)]]).1.get
        ⟨1, by decide⟩).sequence + 1
      = ((WriteAheadLog.in_memory.runOps
          [WalOp.one "e1" 10 0, WalOp.batch [("e2", 11, 0), ("e3", 12, 0)]]).1.get
          ⟨2, by decide⟩).sequence :=
  c5_sequences_gapless WriteAheadLog.in_memory
    [WalOp.one "e1" 10 0, WalOp.batch [("e2", 11, 0), ("e3", 12, 0)]] 1 (by decide)

/-! ### C8: sequence recovery on open -/

theorem le_foldr_max (l : List Nat) (x : Nat) (hx : x ∈ l) :
    x ≤ l.foldr max 0 := by
  induction l with
  | nil => cases hx
  | cons a t ih =>
    rcases List.mem_cons.mp hx with h | h
    · subst h
      exact Nat.le_max_left _ _
    · exact Nat.le_trans (ih h) (Nat.le_max_right _ _)

theorem foldr_max_mem (l : List Nat) (h : l ≠ []) : l.foldr max 0 ∈ l := by
  induction l with
  | nil => exact absurd rfl h
  | cons a t ih =>
    cases t with
    | nil => simp
    | cons b u =>
      rcases Nat.le_total ((b :: u).foldr max 0) a with hle | hle
      · have : (a :: b :: u).foldr max 0 = a := by
          simpa [List.foldr] using Nat.max_eq_left hle
        rw [this]
        exact List.mem_cons_self a _
      · have : (a :: b :: u).foldr max 0 = (b :: u).foldr max 0 := by
          simpa [List.foldr] using Nat.max_eq_right hle
        rw [this]
        exact List.mem_cons.mpr (Or.inr (ih (by simp)))

/-- C8: opening the log sets `next_sequence` to the maximum existing
sequence plus one — every stored sequence is below it, and for a
non-empty store it is exactly some stored sequence plus one; with no
records it is 1. `last_sequence` always reports `next_sequence - 1`
(saturating), so a freshly created (`in_memory`) log reports 0. -/
theorem c8_open_recovers_sequence (records : List EventEnvelope) :
    (∀ env ∈ records, env.sequence < (WriteAheadLog.openFrom records).next_sequence)
    ∧ (records ≠ [] →
        ∃ env ∈ records,
          (WriteAheadLog.openFrom records).next_sequence = env.sequence + 1)
    ∧ (WriteAheadLog.openFrom records).last_sequence
        = (WriteAheadLog.openFrom records).next_sequence - 1
    ∧ (records = [] → (WriteAheadLog.openFrom records).next_sequence = 1)
    ∧ WriteAheadLog.in_memory.last_sequence = 0 := by
  refine ⟨?_, ?_, rfl, ?_, rfl⟩
  · intro env he
    have : env.sequence ≤ (records.map (fun e => e.sequence)).foldr max 0 :=
      le_foldr_max _ _ (List.mem_map.mpr ⟨env, he, rfl⟩)
    exact Nat.lt_succ_of_le this
  · intro h
    have hm : (records.map (fun e => e.sequence)).foldr max 0
        ∈ records.map (fun e => e.sequence) :=
      foldr_max_mem _ (by simpa using h)
    rcases List.mem_map.mp hm with ⟨env, he, heq⟩
    exact ⟨env, he, by simp [WriteAheadLog.openFrom, ← heq]⟩
  · intro h
    subst h
    rfl

/-- Witness for C8 at a concrete input: a store holding sequences 2 and
5; reopening yields next sequence 6. -/
theorem c8_open_recovers_sequence_witness :
    (∀ env ∈ [({ id := 10, sequence := 2, event := "e", created_at := 0 } : EventEnvelope),
              { id := 11, sequence := 5, event := "e", created_at := 0 }],
        env.sequence
          < (WriteAheadLog.openFrom
              [{ id := 10, sequence := 2, event := "e", created_at := 0 },
               { id := 11, sequence := 5, event := "e", created_at := 0 }]).next_sequence)
    ∧ (([({ id := 10, sequence := 2, event := "e", created_at := 0 } : EventEnvelope),
         { id := 11, sequence := 5, event := "e", created_at := 0 }]) ≠ [] →
        ∃ env ∈ [({ id := 10, sequence := 2, event := "e", created_at := 0 } : EventEnvelope),
                 { id := 11, sequence := 5, event := "e", created_at := 0 }],
          (WriteAheadLog.openFrom
              [{ id := 10, sequence := 2, event := "e", created_at := 0 },
               { id := 11, sequence := 5, event := "e", created_at := 0 }]).next_sequence
            = env.sequence + 1)
    ∧ (WriteAheadLog.openFrom
          [{ id := 10, sequence := 2, event := "e", created_at := 0 },
           { id := 11, sequence := 5, event := "e", created_at := 0 }]).last_sequence
        = (WriteAheadLog.openFrom
            [{ id := 10, sequence := 2, event := "e", created_at := 0 },
             { id := 11, sequence := 5, event := "e", created_at := 0 }]).next_sequence - 1
    ∧ (([({ id := 10, sequence := 2, event := "e", created_at := 0 } : EventEnvelope),
         { id := 11, sequence := 5, event := "e", created_at := 0 }]) = [] →
        (WriteAheadLog.openFrom
            [{ id := 10, sequence := 2, event := "e", created_at := 0 },
             { id := 11, sequence := 5, event := "e", created_at := 0 }]).next_sequence = 1)
    ∧ WriteAheadLog.in_memory.last_sequence = 0 :=
  c8_open_recovers_sequence
    [{ id := 10, sequence := 2, event := "e", created_at := 0 },
     { id := 11, sequence := 5, event := "e", created_at := 0 }]

/-! ### C9: progress on the empty and non-empty node map -/

/-- C9: an empty `WorkflowContext` is vacuously complete
(`is_complete = true`) yet `progress` returns 0 rather than 1; on any
non-empty context `progress` is the count of terminal nodes over the
total node count. -/
theorem c9_progress_empty_zero :
    (∀ w : WorkflowContext, w.nodes = [] →
      w.is_complete = true ∧ w.progress = 0 ∧ w.progress ≠ 1)
    ∧ (∀ w : WorkflowContext, w.nodes ≠ [] →
        w.progress
          = ((w.nodes.filter (fun p => p.2.state.is_terminal)).length : ℚ)
              / (w.nodes.length : ℚ)) := by
  constructor
  · intro w h
    refine ⟨?_, ?_, ?_⟩
    · simp [WorkflowContext.is_complete, h]
    · simp [WorkflowContext.progress, h]
    · simp [WorkflowContext.progress, h]
  · intro w h
    simp [WorkflowContext.progress, List.isEmpty_eq_false.mpr h]

/-- The empty workflow context used by the C9 witness. -/
def wcEmpty : WorkflowContext :=
  { workflow_id := 0, execution_id := 0, name := "w",
    state := WorkflowState.Pending, started_at := 0, completed_at := none,
    nodes := [] }

/-- A one-node (terminal) workflow context used by the C9 witness. -/
def wcOne : WorkflowContext :=
  { wcEmpty with
    nodes := [(1, { NodeContext.new 1 0 with state := NodeState.Done })] }

/-- Witness for C9 at concrete inputs: the empty context and a one-node
context. -/
theorem c9_progress_empty_zero_witness :
    (wcEmpty.is_complete = true ∧ wcEmpty.progress = 0 ∧ wcEmpty.progress ≠ 1)
    ∧ wcOne.progress
        = ((wcOne.nodes.filter (fun p => p.2.state.is_terminal)).length : ℚ)
            / (wcOne.nodes.length : ℚ) :=
  ⟨c9_progress_empty_zero.1 wcEmpty rfl,
   c9_progress_empty_zero.2 wcOne (by simp [wcOne])⟩

end SwarmUI
